import Mathlib

/-!
Shallow embedding of the STM32F1xx I2C master-mode driver (`src/i2c.rs`):
the frequency/mode model (`Mode`, `DutyCycle`, `From<Hertz>`), the timing
register calculator inside `I2c::init`, the lifecycle operations
(`I2c::new`, `I2c::init`, `I2c::reset`), the bus primitives
(`send_start`, `send_addr`, `send_stop`) and `I2c::release`.

Machine integers are modelled as `Nat` with explicit truncation (`% 256`,
`% 65536`) exactly at the points the source casts (`as u8`, `as u16`) or
performs wrapping `u16` arithmetic.  Register writes are modelled as an
explicit event list (`RegWrite`) together with a state-transformer
semantics, so that both the final register state and the order of writes
(and the register state at the moment of each write) are observable.
-/

namespace I2cHal

/-- Truncating cast to 8 bits, as performed by the source's `as u8` casts. -/
def u8 (n : Nat) : Nat := n % 256

/-- Truncating cast to 16 bits, as performed by the source's `as u16` casts
and by wrapping `u16` arithmetic. -/
def u16 (n : Nat) : Nat := n % 65536

/-- `Hertz` from `crate::time` (fugit `HertzU32`): a `u32` frequency in Hz. -/
structure Hertz where
  raw : Nat
deriving DecidableEq

/-- The `kHz(n)` constructor from `crate::time`. -/
def kHz (n : Nat) : Hertz :=
  ⟨n * 1000⟩

/-- `Hertz::to_MHz`: the whole number of MHz, by truncating integer division. -/
def Hertz.to_MHz (h : Hertz) : Nat :=
  h.raw / 1000000

/-- `DutyCycle` (src/i2c.rs, lines 34-38). -/
inductive DutyCycle
  | Ratio2to1
  | Ratio16to9
deriving DecidableEq

/-- `Mode` (src/i2c.rs, lines 40-49). -/
inductive Mode
  | Standard (frequency : Hertz)
  | Fast (frequency : Hertz) (duty_cycle : DutyCycle)
deriving DecidableEq

/-- `Mode::get_frequency` (src/i2c.rs, lines 63-68). -/
def Mode.get_frequency : Mode → Hertz
  | .Standard frequency => frequency
  | .Fast frequency _ => frequency

/-- `impl From<Hertz> for Mode` (src/i2c.rs, lines 71-82): at most `kHz(100)`
classifies as `Standard`, anything larger as `Fast` with default duty cycle
`Ratio2to1`. -/
def Mode.fromHertz (frequency : Hertz) : Mode :=
  if frequency.raw ≤ (kHz 100).raw then
    Mode.Standard frequency
  else
    Mode.Fast frequency DutyCycle.Ratio2to1

/-- The CR1 control bits the driver touches: peripheral enable (PE),
START, STOP and software reset (SWRST). -/
structure CR1 where
  pe : Bool
  start : Bool
  stop : Bool
  swrst : Bool
deriving DecidableEq

/-- CR1 power-on / reset value: all control bits clear. -/
def CR1.resetVal : CR1 :=
  ⟨false, false, false, false⟩

/-- The CCR clock-control fields the driver writes: the CCR divisor,
the DUTY flag and the F/S (fast-mode select) flag. -/
structure CCR where
  ccr : Nat
  duty : Bool
  f_s : Bool
deriving DecidableEq

/-- CCR power-on / reset value. -/
def CCR.resetVal : CCR :=
  ⟨0, false, false⟩

/-- The slice of the I2C register block the driver reads or writes:
CR1, the FREQ field of CR2, TRISE, CCR and the data register DR. -/
structure I2cRegs where
  cr1 : CR1
  cr2_freq : Nat
  trise : Nat
  ccr : CCR
  dr : Nat
deriving DecidableEq

/-- Power-on defaults of the modelled register slice (the state after the
RCC reset pulse issued in `I2c::new`). -/
def I2cRegs.resetVal : I2cRegs :=
  ⟨CR1.resetVal, 0, 0, CCR.resetVal, 0⟩

/-- The registers the driver writes. -/
inductive Reg
  | CR1R
  | CR2R
  | TRISER
  | CCRR
  | DRR
deriving DecidableEq

/-- One register write performed by the driver.  `writeCR1` is a full
register write (svd2rust `write`, unmentioned bits go to their reset
value, so START and STOP are cleared); `resetCR1Reg` is `cr1.reset()`;
`modifyCR1setPE` is the read-modify-write `cr1.modify(|_, w| w.pe().set_bit())`
which preserves the other bits. -/
inductive RegWrite
  | writeCR2freq (v : Nat)
  | writeCR1 (pe swrst : Bool)
  | resetCR1Reg
  | modifyCR1setPE
  | modifyCR1setSTART
  | modifyCR1setSTOP
  | writeTRISE (v : Nat)
  | writeCCR (v : Nat) (duty f_s : Bool)
  | writeDR (v : Nat)
deriving DecidableEq

/-- State-transformer semantics of a single register write. -/
def RegWrite.apply : RegWrite → I2cRegs → I2cRegs
  | .writeCR2freq v, s => { s with cr2_freq := v }
  | .writeCR1 pe swrst, s => { s with cr1 := ⟨pe, false, false, swrst⟩ }
  | .resetCR1Reg, s => { s with cr1 := CR1.resetVal }
  | .modifyCR1setPE, s => { s with cr1 := { s.cr1 with pe := true } }
  | .modifyCR1setSTART, s => { s with cr1 := { s.cr1 with start := true } }
  | .modifyCR1setSTOP, s => { s with cr1 := { s.cr1 with stop := true } }
  | .writeTRISE v, s => { s with trise := v }
  | .writeCCR v duty f_s, s => { s with ccr := ⟨v, duty, f_s⟩ }
  | .writeDR v, s => { s with dr := v }

/-- The register a write targets. -/
def RegWrite.target : RegWrite → Reg
  | .writeCR2freq _ => .CR2R
  | .writeCR1 _ _ => .CR1R
  | .resetCR1Reg => .CR1R
  | .modifyCR1setPE => .CR1R
  | .modifyCR1setSTART => .CR1R
  | .modifyCR1setSTOP => .CR1R
  | .writeTRISE _ => .TRISER
  | .writeCCR _ _ _ => .CCRR
  | .writeDR _ => .DRR

/-- Run a list of register writes in order. -/
def runWrites (ws : List RegWrite) (s : I2cRegs) : I2cRegs :=
  ws.foldl (fun t w => w.apply t) s

/-- Pair each write of a list with the register state at the moment it is
performed (its pre-state). -/
def tracePre (s : I2cRegs) : List RegWrite → List (RegWrite × I2cRegs)
  | [] => []
  | w :: ws => (w, s) :: tracePre (w.apply s) ws

/-- The register writes `I2c::init` performs, in program order
(src/i2c.rs, lines 188-223): CR2 FREQ field, full CR1 write clearing PE,
TRISE, CCR (divisor plus, in fast mode, DUTY and F/S), and finally the
read-modify-write setting PE.  All casts of the source are reproduced:
`to_MHz() as u16`, the `as u8` casts on FREQ and TRISE, the wrapping
`u16` multiply `pclk1_mhz * 300`, and the `as u16` casts on the CCR
quotients before `.max`. -/
def initWrites (mode : Mode) (pclk1 : Hertz) : List RegWrite :=
  let freq := mode.get_frequency
  let pclk1_mhz := u16 pclk1.to_MHz
  RegWrite.writeCR2freq (u8 pclk1_mhz) ::
  RegWrite.writeCR1 false false ::
  (match mode with
   | .Standard _ =>
      [RegWrite.writeTRISE (u8 (pclk1_mhz + 1)),
       RegWrite.writeCCR (Nat.max (u16 (pclk1.raw / (freq.raw * 2))) 4) false false]
   | .Fast _ duty_cycle =>
      [RegWrite.writeTRISE (u8 (u16 (pclk1_mhz * 300) / 1000 + 1)),
       match duty_cycle with
       | .Ratio2to1 =>
          RegWrite.writeCCR (Nat.max (u16 (pclk1.raw / (freq.raw * 3))) 1) false true
       | .Ratio16to9 =>
          RegWrite.writeCCR (Nat.max (u16 (pclk1.raw / (freq.raw * 25))) 1) true true]) ++
  [RegWrite.modifyCR1setPE]

/-- `I2c::init` as a state transformer: run its writes in order. -/
def I2c.init (mode : Mode) (pclk1 : Hertz) (s : I2cRegs) : I2cRegs :=
  runWrites (initWrites mode pclk1) s

/-- The register writes `I2c::reset` performs (src/i2c.rs, lines 226-230):
full CR1 write setting PE and SWRST simultaneously, `cr1.reset()`
restoring the CR1 power-on value, then the writes of `init`. -/
def I2c.resetWrites (mode : Mode) (pclk1 : Hertz) : List RegWrite :=
  RegWrite.writeCR1 true true :: RegWrite.resetCR1Reg :: initWrites mode pclk1

/-- `I2c::reset` as a state transformer. -/
def I2c.reset (mode : Mode) (pclk1 : Hertz) (s : I2cRegs) : I2cRegs :=
  runWrites (I2c.resetWrites mode pclk1) s

/-- `I2c::send_start` (src/i2c.rs, lines 233-235). -/
def I2c.send_start (s : I2cRegs) : I2cRegs :=
  RegWrite.modifyCR1setSTART.apply s

/-- The data byte composed by `I2c::send_addr` (src/i2c.rs, line 242):
`addr << 1 | u8::from(read)` on `u8`, i.e. the left shift truncates the
product `addr * 2` to 8 bits before or-ing in the read flag. -/
def I2c.send_addrByte (addr : Nat) (read : Bool) : Nat :=
  u8 (addr * 2) ||| (if read then 1 else 0)

/-- `I2c::send_addr` (src/i2c.rs, lines 239-243): exactly one write, to the
data register.  Returned are the new state and the list of writes performed. -/
def I2c.send_addr (addr : Nat) (read : Bool) (s : I2cRegs) :
    I2cRegs × List RegWrite :=
  ((RegWrite.writeDR (I2c.send_addrByte addr read)).apply s,
   [RegWrite.writeDR (I2c.send_addrByte addr read)])

/-- `I2c::send_stop` (src/i2c.rs, lines 246-248). -/
def I2c.send_stop (s : I2cRegs) : I2cRegs :=
  RegWrite.modifyCR1setSTOP.apply s

/-- The driver handle `I2c<I2C>` (src/i2c.rs, lines 137-142): owns the
peripheral instance, the converted pin set, the mode and the cached pclk1. -/
structure I2cHandle (P Pins : Type) where
  i2c : P
  pins : Pins
  mode : Mode
  pclk1 : Hertz
deriving DecidableEq

/-- `I2c::new` (src/i2c.rs, lines 159-182).  Before the frequency assert the
source only asks the clock subsystem (an external collaborator) to enable the
clock gate and pulse the peripheral reset line, which leaves the register
block at its power-on defaults; the driver itself performs no register write
before the assert.  Result: the list of register writes the driver performs,
and `some (handle, final register state)` on success or `none` when the
assert `mode.get_frequency() <= kHz(400)` fails. -/
def I2c.new {P RawPins Pins : Type} (i2c : P) (pins : RawPins)
    (intoPins : RawPins → Pins) (mode : Mode) (pclk1 : Hertz) :
    List RegWrite × Option (I2cHandle P Pins × I2cRegs) :=
  if mode.get_frequency.raw ≤ (kHz 400).raw then
    (initWrites mode pclk1,
     some (⟨i2c, intoPins pins, mode, pclk1⟩,
           I2c.init mode pclk1 I2cRegs.resetVal))
  else
    ([], none)

/-- `I2c::release` (src/i2c.rs, lines 251-253): the body is the plain pair
`(self.i2c, self.pins)`, so the list of register writes performed is empty. -/
def I2c.release {P Pins : Type} (h : I2cHandle P Pins) :
    (P × Pins) × List RegWrite :=
  ((h.i2c, h.pins), [])

/-- The timing registers named by the spec: the input-clock field (CR2),
the rise-time register (TRISE) and the clock-control register (CCR). -/
def isTimingReg : Reg → Bool
  | .CR2R => true
  | .TRISER => true
  | .CCRR => true
  | _ => false

/-- A write that disables (clears) the peripheral-enable bit. -/
def isDisablePE : RegWrite → Bool
  | .writeCR1 pe _ => !pe
  | .resetCR1Reg => true
  | _ => false

/-- The ordering property claimed by the spec for `init`: every write to a
timing register is preceded, somewhere earlier in the write list, by a write
that disables the peripheral-enable bit. -/
def peDisabledBeforeTimingWrites (ws : List RegWrite) : Prop :=
  ∀ i, (hi : i < ws.length) → isTimingReg (ws.get ⟨i, hi⟩).target = true →
    ∃ j, ∃ hj : j < ws.length, j < i ∧ isDisablePE (ws.get ⟨j, hj⟩) = true

theorem two_mul_lor_one (a : Nat) : 2 * a ||| 1 = 2 * a + 1 := by
  apply Nat.eq_of_testBit_eq
  intro i
  cases i with
  | zero =>
      simp only [Nat.testBit_or, Nat.testBit_zero]
      have h1 : (2 * a) % 2 = 0 := by omega
      have h2 : (2 * a + 1) % 2 = 1 := by omega
      simp [h1, h2]
  | succ j =>
      have h1 : 2 * a / 2 = a := by omega
      have h2 : (2 * a + 1) / 2 = a := by omega
      have h3 : (1 : Nat) / 2 = 0 := by norm_num
      rw [Nat.testBit_or]
      simp only [Nat.testBit_add_one, h1, h2, h3, Nat.zero_testBit,
        Bool.or_false]

/-- Claim C1, as stated, is false: with standard-mode frequency `f = 1 Hz`
(within the claimed range `0 < f ≤ 100 kHz`) and `pclk1 = 36 MHz` (the
maximum supported PCLK1), the quotient `pclk1 / (2 f) = 18000000` exceeds
`2^16`, so the `as u16` cast truncates it before the clamp: the written
divisor is `18000000 % 65536 = 43136`, not `max 4 18000000`. -/
theorem c1_counterexample :
    (I2c.init (Mode.Standard ⟨1⟩) ⟨36000000⟩ I2cRegs.resetVal).ccr.ccr ≠
      Nat.max 4 (36000000 / (2 * 1)) := by
  decide

/-- Claim C1 (amended): for standard mode with `0 < f ≤ 100 kHz` and
supported `pclk1 ≤ 36 MHz`, provided the quotient `pclk1 / (2 f)` fits in
16 bits, `init` writes the clock-control divisor `max 4 (pclk1 / (2 f))`,
the rise-time field `⌊pclk1 in MHz⌋ + 1`, and leaves the DUTY and F/S
flags unset — regardless of the initial register state. -/
theorem c1_standard_timing (f pclk1 : Nat) (s0 : I2cRegs)
    (hf0 : 0 < f) (hf : f ≤ 100000) (hp : pclk1 ≤ 36000000)
    (hq : pclk1 / (2 * f) < 65536) :
    (I2c.init (Mode.Standard ⟨f⟩) ⟨pclk1⟩ s0).ccr.ccr =
      Nat.max 4 (pclk1 / (2 * f)) ∧
    (I2c.init (Mode.Standard ⟨f⟩) ⟨pclk1⟩ s0).trise = pclk1 / 1000000 + 1 ∧
    (I2c.init (Mode.Standard ⟨f⟩) ⟨pclk1⟩ s0).ccr.duty = false ∧
    (I2c.init (Mode.Standard ⟨f⟩) ⟨pclk1⟩ s0).ccr.f_s = false := by
  have hm : pclk1 / 1000000 ≤ 36 := by
    calc pclk1 / 1000000 ≤ 36000000 / 1000000 := Nat.div_le_div_right hp
    _ = 36 := by norm_num
  refine ⟨?_, ?_, ?_, ?_⟩ <;>
    simp only [I2c.init, runWrites, initWrites, RegWrite.apply, Mode.get_frequency,
      Hertz.to_MHz, u8, u16, List.foldl_cons, List.foldl_nil, List.cons_append,
      List.nil_append]
  · rw [mul_comm f 2, Nat.mod_eq_of_lt hq]
    exact Nat.max_comm _ _
  · omega

/-- Witness for C1's amended theorem at `f = 100 kHz`, `pclk1 = 8 MHz`. -/
theorem c1_standard_timing_witness :
    (I2c.init (Mode.Standard ⟨100000⟩) ⟨8000000⟩ I2cRegs.resetVal).ccr.ccr =
      Nat.max 4 (8000000 / (2 * 100000)) ∧
    (I2c.init (Mode.Standard ⟨100000⟩) ⟨8000000⟩ I2cRegs.resetVal).trise =
      8000000 / 1000000 + 1 ∧
    (I2c.init (Mode.Standard ⟨100000⟩) ⟨8000000⟩ I2cRegs.resetVal).ccr.duty = false ∧
    (I2c.init (Mode.Standard ⟨100000⟩) ⟨8000000⟩ I2cRegs.resetVal).ccr.f_s = false :=
  c1_standard_timing 100000 8000000 I2cRegs.resetVal (by decide) (by decide)
    (by decide) (by decide)

/-- Claim C2: for fast mode with `100 kHz < f ≤ 400 kHz` and supported
`pclk1 ≤ 36 MHz`, `init` writes: for `Ratio2to1` the divisor
`max 1 (pclk1 / (3 f))` with DUTY clear, for `Ratio16to9` the divisor
`max 1 (pclk1 / (25 f))` with DUTY set; in both cases F/S set and the
rise-time field `⌊pclk1 in MHz⌋ * 300 / 1000 + 1` (truncating integer
arithmetic). -/
theorem c2_fast_timing (f pclk1 : Nat) (dc : DutyCycle) (s0 : I2cRegs)
    (hf1 : 100000 < f) (hf2 : f ≤ 400000) (hp : pclk1 ≤ 36000000) :
    (I2c.init (Mode.Fast ⟨f⟩ dc) ⟨pclk1⟩ s0).ccr.ccr =
      (match dc with
       | .Ratio2to1 => Nat.max 1 (pclk1 / (3 * f))
       | .Ratio16to9 => Nat.max 1 (pclk1 / (25 * f))) ∧
    (I2c.init (Mode.Fast ⟨f⟩ dc) ⟨pclk1⟩ s0).ccr.duty =
      (match dc with
       | .Ratio2to1 => false
       | .Ratio16to9 => true) ∧
    (I2c.init (Mode.Fast ⟨f⟩ dc) ⟨pclk1⟩ s0).ccr.f_s = true ∧
    (I2c.init (Mode.Fast ⟨f⟩ dc) ⟨pclk1⟩ s0).trise =
      pclk1 / 1000000 * 300 / 1000 + 1 := by
  have hm : pclk1 / 1000000 ≤ 36 := by
    calc pclk1 / 1000000 ≤ 36000000 / 1000000 := Nat.div_le_div_right hp
    _ = 36 := by norm_num
  have hq3 : pclk1 / (f * 3) < 65536 := by
    have h1 : pclk1 / (f * 3) ≤ pclk1 / 300003 :=
      Nat.div_le_div_left (by omega) (by norm_num)
    have h2 : pclk1 / 300003 ≤ 36000000 / 300003 := Nat.div_le_div_right hp
    omega
  have hq25 : pclk1 / (f * 25) < 65536 := by
    have h1 : pclk1 / (f * 25) ≤ pclk1 / 2500025 :=
      Nat.div_le_div_left (by omega) (by norm_num)
    have h2 : pclk1 / 2500025 ≤ 36000000 / 2500025 := Nat.div_le_div_right hp
    omega
  cases dc <;>
    refine ⟨?_, ?_, ?_, ?_⟩ <;>
      simp only [I2c.init, runWrites, initWrites, RegWrite.apply, Mode.get_frequency,
        Hertz.to_MHz, u8, u16, List.foldl_cons, List.foldl_nil, List.cons_append,
        List.nil_append]
  · rw [mul_comm f 3, Nat.mod_eq_of_lt (by rw [mul_comm 3 f]; exact hq3)]
    exact Nat.max_comm _ _
  · have e1 : pclk1 / 1000000 % 65536 = pclk1 / 1000000 :=
      Nat.mod_eq_of_lt (by omega)
    rw [e1]
    have e2 : pclk1 / 1000000 * 300 % 65536 = pclk1 / 1000000 * 300 :=
      Nat.mod_eq_of_lt (by omega)
    rw [e2]
    exact Nat.mod_eq_of_lt (by omega)
  · rw [mul_comm f 25, Nat.mod_eq_of_lt (by rw [mul_comm 25 f]; exact hq25)]
    exact Nat.max_comm _ _
  · have e1 : pclk1 / 1000000 % 65536 = pclk1 / 1000000 :=
      Nat.mod_eq_of_lt (by omega)
    rw [e1]
    have e2 : pclk1 / 1000000 * 300 % 65536 = pclk1 / 1000000 * 300 :=
      Nat.mod_eq_of_lt (by omega)
    rw [e2]
    exact Nat.mod_eq_of_lt (by omega)

/-- Witness for C2 at `f = 400 kHz`, `pclk1 = 36 MHz`, duty `Ratio2to1`. -/
theorem c2_fast_timing_witness :
    (I2c.init (Mode.Fast ⟨400000⟩ DutyCycle.Ratio2to1) ⟨36000000⟩
        I2cRegs.resetVal).ccr.ccr =
      (match DutyCycle.Ratio2to1 with
       | .Ratio2to1 => Nat.max 1 (36000000 / (3 * 400000))
       | .Ratio16to9 => Nat.max 1 (36000000 / (25 * 400000))) ∧
    (I2c.init (Mode.Fast ⟨400000⟩ DutyCycle.Ratio2to1) ⟨36000000⟩
        I2cRegs.resetVal).ccr.duty =
      (match DutyCycle.Ratio2to1 with
       | .Ratio2to1 => false
       | .Ratio16to9 => true) ∧
    (I2c.init (Mode.Fast ⟨400000⟩ DutyCycle.Ratio2to1) ⟨36000000⟩
        I2cRegs.resetVal).ccr.f_s = true ∧
    (I2c.init (Mode.Fast ⟨400000⟩ DutyCycle.Ratio2to1) ⟨36000000⟩
        I2cRegs.resetVal).trise = 36000000 / 1000000 * 300 / 1000 + 1 :=
  c2_fast_timing 400000 36000000 DutyCycle.Ratio2to1 I2cRegs.resetVal
    (by decide) (by decide) (by decide)

/-- Claim C3, as stated, is false: `init` writes the input-clock field (CR2)
as its very first register write, before the write that clears the
peripheral-enable bit, so the disable does not precede every timing-register
write. -/
theorem c3_counterexample :
    ¬ peDisabledBeforeTimingWrites
        (initWrites (Mode.Standard ⟨100000⟩) ⟨8000000⟩) := by
  intro hcl
  obtain ⟨j, hj, hji, _⟩ := hcl 0 (by decide) (by decide)
  omega

/-- Claim C3 (amended): `init` writes CR2 (input-clock field) first, only
then clears the peripheral-enable bit with a full CR1 write, then writes
TRISE and CCR, and sets PE as its very last write.  Consequently, whenever
`init` starts with the PE bit clear — which holds at both of its call sites
(`new` enters it right after the peripheral reset pulse, whose state has PE
clear, and `reset` enters it right after `cr1.reset()`) — the PE bit is
clear at the moment each timing register is written, and PE is re-enabled
only after all timing fields are written. -/
theorem c3_pe_clear_at_timing_writes (mode : Mode) (pclk1 : Hertz) (s : I2cRegs)
    (hpe : s.cr1.pe = false) :
    (∀ p ∈ tracePre s (initWrites mode pclk1),
       isTimingReg p.1.target = true → p.2.cr1.pe = false) ∧
    (I2c.init mode pclk1 s).cr1.pe = true ∧
    (∃ v, (initWrites mode pclk1).take 2 =
      [RegWrite.writeCR2freq v, RegWrite.writeCR1 false false]) ∧
    (initWrites mode pclk1).drop 4 = [RegWrite.modifyCR1setPE] ∧
    I2cRegs.resetVal.cr1.pe = false ∧
    (RegWrite.resetCR1Reg.apply ((RegWrite.writeCR1 true true).apply s)).cr1.pe =
      false := by
  rcases mode with f | ⟨f, dc⟩
  on_goal 2 => rcases dc with _ | _
  all_goals
    constructor
    · intro p hp
      simp only [initWrites, tracePre, RegWrite.apply, List.cons_append,
        List.nil_append, List.mem_cons, List.not_mem_nil, or_false] at hp
      rcases hp with rfl | rfl | rfl | rfl | rfl <;>
        simp [RegWrite.target, isTimingReg, hpe]
    · refine ⟨?_, ⟨_, rfl⟩, rfl, rfl, rfl⟩
      simp [I2c.init, runWrites, initWrites, RegWrite.apply]

/-- Witness for C3's amended theorem at standard mode 100 kHz, 8 MHz,
starting from the reset state. -/
theorem c3_pe_clear_at_timing_writes_witness :
    (∀ p ∈ tracePre I2cRegs.resetVal
        (initWrites (Mode.Standard ⟨100000⟩) ⟨8000000⟩),
       isTimingReg p.1.target = true → p.2.cr1.pe = false) ∧
    (I2c.init (Mode.Standard ⟨100000⟩) ⟨8000000⟩ I2cRegs.resetVal).cr1.pe = true ∧
    (∃ v, (initWrites (Mode.Standard ⟨100000⟩) ⟨8000000⟩).take 2 =
      [RegWrite.writeCR2freq v, RegWrite.writeCR1 false false]) ∧
    (initWrites (Mode.Standard ⟨100000⟩) ⟨8000000⟩).drop 4 =
      [RegWrite.modifyCR1setPE] ∧
    I2cRegs.resetVal.cr1.pe = false ∧
    (RegWrite.resetCR1Reg.apply
        ((RegWrite.writeCR1 true true).apply I2cRegs.resetVal)).cr1.pe = false :=
  c3_pe_clear_at_timing_writes (Mode.Standard ⟨100000⟩) ⟨8000000⟩
    I2cRegs.resetVal (by decide)

/-- Claim C4: constructing with a resolved mode frequency above 400 kHz
fails the assert `mode.get_frequency() <= kHz(400)` before the driver
performs any register write: `new` aborts with an empty write list and no
handle, leaving the register block untouched by the driver. -/
theorem c4_overfrequency_aborts {P RawPins Pins : Type} (i2c : P)
    (pins : RawPins) (intoPins : RawPins → Pins) (mode : Mode) (pclk1 : Hertz)
    (hf : 400000 < mode.get_frequency.raw) :
    I2c.new i2c pins intoPins mode pclk1 =
      (([] : List RegWrite), (none : Option (I2cHandle P Pins × I2cRegs))) := by
  unfold I2c.new
  rw [if_neg]
  simp only [kHz]
  omega

/-- Witness for C4 at 500 kHz. -/
theorem c4_overfrequency_aborts_witness :
    I2c.new (0 : Nat) (0 : Nat) (fun x => x) (Mode.Standard ⟨500000⟩)
        ⟨8000000⟩ =
      (([] : List RegWrite), (none : Option (I2cHandle Nat Nat × I2cRegs))) :=
  c4_overfrequency_aborts 0 0 (fun x => x) (Mode.Standard ⟨500000⟩) ⟨8000000⟩
    (by decide)

/-- Claim C5: the frequency-to-mode conversion is total and
boundary-correct: every frequency of at most 100 kHz maps to `Standard`,
every larger frequency to `Fast` with default duty cycle `Ratio2to1`. -/
theorem c5_mode_classification (f : Hertz) :
    (f.raw ≤ 100000 → Mode.fromHertz f = Mode.Standard f) ∧
    (100000 < f.raw → Mode.fromHertz f = Mode.Fast f DutyCycle.Ratio2to1) := by
  constructor <;> intro h <;> unfold Mode.fromHertz <;> simp only [kHz]
  · rw [if_pos (by omega)]
  · rw [if_neg (by omega)]

/-- Witness for C5 at the boundary: exactly 100 kHz is `Standard`,
100 kHz + 1 Hz is `Fast` with `Ratio2to1`. -/
theorem c5_mode_classification_witness :
    Mode.fromHertz ⟨100000⟩ = Mode.Standard ⟨100000⟩ ∧
    Mode.fromHertz ⟨100001⟩ = Mode.Fast ⟨100001⟩ DutyCycle.Ratio2to1 :=
  ⟨(c5_mode_classification ⟨100000⟩).1 (by decide),
   (c5_mode_classification ⟨100001⟩).2 (by decide)⟩

/-- Claim C6, as stated, is false: `reset` never touches the data register,
while a fresh construction resets it to 0.  Starting from a reachable state
whose DR holds 0xA1 = 161 (left there by `send_addr(0x50, read)`), the
post-reset register state differs from the fresh-construction state. -/
theorem c6_counterexample :
    I2c.reset (Mode.Standard ⟨100000⟩) ⟨8000000⟩
        ⟨CR1.resetVal, 0, 0, CCR.resetVal, 161⟩ ≠
      I2c.init (Mode.Standard ⟨100000⟩) ⟨8000000⟩ I2cRegs.resetVal := by
  decide

/-- Claim C6 (amended): for every initial state, software reset restores
CR1, CR2, TRISE and CCR to exactly the values a fresh construction with the
same mode and pclk1 produces, but leaves the data register unchanged rather
than restoring it; and reset is idempotent: resetting twice yields the same
register state as resetting once. -/
theorem c6_reset_vs_fresh (mode : Mode) (pclk1 : Hertz) (s : I2cRegs) :
    (I2c.reset mode pclk1 s).cr1 =
      (I2c.init mode pclk1 I2cRegs.resetVal).cr1 ∧
    (I2c.reset mode pclk1 s).cr2_freq =
      (I2c.init mode pclk1 I2cRegs.resetVal).cr2_freq ∧
    (I2c.reset mode pclk1 s).trise =
      (I2c.init mode pclk1 I2cRegs.resetVal).trise ∧
    (I2c.reset mode pclk1 s).ccr =
      (I2c.init mode pclk1 I2cRegs.resetVal).ccr ∧
    (I2c.reset mode pclk1 s).dr = s.dr ∧
    I2c.reset mode pclk1 (I2c.reset mode pclk1 s) = I2c.reset mode pclk1 s := by
  rcases mode with f | ⟨f, dc⟩
  on_goal 2 => rcases dc with _ | _
  all_goals
    simp [I2c.reset, I2c.resetWrites, I2c.init, runWrites, initWrites,
      RegWrite.apply]

/-- Claim C7: for a 7-bit address, `send_addr` performs exactly one write,
to the data register, of the byte `addr << 1` with bit 0 set when reading
and clear when writing; in particular address 0x50 = 80 gives 0xA1 = 161
when reading and 0xA0 = 160 when writing. -/
theorem c7_send_addr (addr : Nat) (read : Bool) (s : I2cRegs)
    (h : addr ≤ 127) :
    (I2c.send_addr addr read s).1.dr =
      2 * addr + (if read then 1 else 0) ∧
    (I2c.send_addr addr read s).2 =
      [RegWrite.writeDR (2 * addr + (if read then 1 else 0))] ∧
    (I2c.send_addr 80 true s).1.dr = 161 ∧
    (I2c.send_addr 80 false s).1.dr = 160 := by
  have hb : I2c.send_addrByte addr read = 2 * addr + (if read then 1 else 0) := by
    unfold I2c.send_addrByte u8
    have h2 : addr * 2 % 256 = 2 * addr := by omega
    rw [h2]
    cases read
    · simp
    · simpa using two_mul_lor_one addr
  refine ⟨?_, ?_, ?_, ?_⟩
  · simp [I2c.send_addr, RegWrite.apply, hb]
  · simp [I2c.send_addr, hb]
  · simp [I2c.send_addr, RegWrite.apply]
    decide
  · simp [I2c.send_addr, RegWrite.apply]
    decide

/-- Witness for C7 at address 0x50 = 80, read = true. -/
theorem c7_send_addr_witness :
    (I2c.send_addr 80 true I2cRegs.resetVal).1.dr =
      2 * 80 + (if true then 1 else 0) ∧
    (I2c.send_addr 80 true I2cRegs.resetVal).2 =
      [RegWrite.writeDR (2 * 80 + (if true then 1 else 0))] ∧
    (I2c.send_addr 80 true I2cRegs.resetVal).1.dr = 161 ∧
    (I2c.send_addr 80 false I2cRegs.resetVal).1.dr = 160 :=
  c7_send_addr 80 true I2cRegs.resetVal (by decide)

/-- Claim C8: `release` returns exactly the peripheral instance and the
converted pin set that construction stored in the handle, and performs no
register write. -/
theorem c8_release {P RawPins Pins : Type} (i2c : P) (pins : RawPins)
    (intoPins : RawPins → Pins) (mode : Mode) (pclk1 : Hertz)
    (h : I2cHandle P Pins) (sFinal : I2cRegs)
    (hnew : (I2c.new i2c pins intoPins mode pclk1).2 = some (h, sFinal)) :
    I2c.release h = ((i2c, intoPins pins), ([] : List RegWrite)) := by
  unfold I2c.new at hnew
  by_cases hf : mode.get_frequency.raw ≤ (kHz 400).raw
  · rw [if_pos hf] at hnew
    simp only [Option.some.injEq, Prod.mk.injEq] at hnew
    obtain ⟨hh, -⟩ := hnew
    rw [← hh]
    rfl
  · rw [if_neg hf] at hnew
    simp at hnew

/-- Witness for C8 with `Nat` instances for the peripheral and pins. -/
theorem c8_release_witness :
    I2c.release (⟨7, 5, Mode.Standard ⟨100000⟩, ⟨8000000⟩⟩ :
        I2cHandle Nat Nat) = ((7, 5), ([] : List RegWrite)) :=
  c8_release 7 5 (fun x => x) (Mode.Standard ⟨100000⟩) ⟨8000000⟩
    ⟨7, 5, Mode.Standard ⟨100000⟩, ⟨8000000⟩⟩
    (I2c.init (Mode.Standard ⟨100000⟩) ⟨8000000⟩ I2cRegs.resetVal) (by decide)

/-- Claim C9: for every 8-bit address, `send_addr` is total (never aborts)
and writes the data-register byte `((2 * addr) mod 256) ||| read-bit`: when
`addr ≥ 128` the most-significant bit is silently discarded by the 8-bit
left shift, so the written byte agrees with the one for `addr % 128`. -/
theorem c9_send_addr_msb_discarded (addr : Nat) (read : Bool) (s : I2cRegs)
    (haddr : addr < 256) :
    (I2c.send_addr addr read s).1.dr =
      ((2 * addr) % 256 ||| (if read then 1 else 0)) ∧
    (I2c.send_addr addr read s).1.dr =
      (I2c.send_addr (addr % 128) read s).1.dr := by
  constructor
  · simp [I2c.send_addr, RegWrite.apply, I2c.send_addrByte, u8, mul_comm addr 2]
  · simp only [I2c.send_addr, RegWrite.apply, I2c.send_addrByte, u8]
    have h1 : addr * 2 % 256 = addr % 128 * 2 % 256 := by
      rw [mul_comm addr 2, mul_comm (addr % 128) 2]
      have h2 : (2 * addr) % (2 * 128) = 2 * (addr % 128) :=
        Nat.mul_mod_mul_left 2 addr 128
      have h3 : 2 * (addr % 128) < 256 := by omega
      calc 2 * addr % 256 = 2 * (addr % 128) := h2
      _ = 2 * (addr % 128) % 256 := (Nat.mod_eq_of_lt h3).symm
  -- the remaining goal closes by rewriting the truncated products
    rw [h1]

/-- Witness for C9 at address 200 (MSB set): the written byte equals the
one for address 200 % 128 = 72. -/
theorem c9_send_addr_msb_discarded_witness :
    (I2c.send_addr 200 true I2cRegs.resetVal).1.dr =
      ((2 * 200) % 256 ||| (if true then 1 else 0)) ∧
    (I2c.send_addr 200 true I2cRegs.resetVal).1.dr =
      (I2c.send_addr (200 % 128) true I2cRegs.resetVal).1.dr :=
  c9_send_addr_msb_discarded 200 true I2cRegs.resetVal (by decide)

/-- Claim C10: the divisor quotient is truncated to 16 bits before the
minimum clamp (`max (q % 2^16) 4` in standard mode, `max (q % 2^16) 1` in
fast mode), the input-clock and rise-time fields are truncated to 8 bits,
and the untruncated spec formulas hold only when the quotient fits in 16
bits, respectively when `pclk1` in MHz fits in 8 bits. -/
theorem c10_truncation (f pclk1 : Nat) (s0 : I2cRegs) (hf : 0 < f) :
    (I2c.init (Mode.Standard ⟨f⟩) ⟨pclk1⟩ s0).ccr.ccr =
      Nat.max (pclk1 / (2 * f) % 65536) 4 ∧
    (I2c.init (Mode.Fast ⟨f⟩ DutyCycle.Ratio2to1) ⟨pclk1⟩ s0).ccr.ccr =
      Nat.max (pclk1 / (3 * f) % 65536) 1 ∧
    (I2c.init (Mode.Fast ⟨f⟩ DutyCycle.Ratio16to9) ⟨pclk1⟩ s0).ccr.ccr =
      Nat.max (pclk1 / (25 * f) % 65536) 1 ∧
    (I2c.init (Mode.Standard ⟨f⟩) ⟨pclk1⟩ s0).cr2_freq =
      pclk1 / 1000000 % 256 ∧
    (I2c.init (Mode.Standard ⟨f⟩) ⟨pclk1⟩ s0).trise =
      (pclk1 / 1000000 + 1) % 256 ∧
    (I2c.init (Mode.Standard ⟨f⟩) ⟨pclk1⟩ s0).trise < 256 ∧
    (I2c.init (Mode.Fast ⟨f⟩ DutyCycle.Ratio2to1) ⟨pclk1⟩ s0).trise < 256 ∧
    ((I2c.init (Mode.Standard ⟨f⟩) ⟨pclk1⟩ s0).ccr.ccr =
        Nat.max 4 (pclk1 / (2 * f)) → pclk1 / (2 * f) < 65536) ∧
    ((I2c.init (Mode.Standard ⟨f⟩) ⟨pclk1⟩ s0).trise =
        pclk1 / 1000000 + 1 → pclk1 / 1000000 < 256) := by
  refine ⟨?_, ?_, ?_, ?_, ?_, ?_, ?_, ?_, ?_⟩ <;>
    simp only [I2c.init, runWrites, initWrites, RegWrite.apply, Mode.get_frequency,
      Hertz.to_MHz, u8, u16, List.foldl_cons, List.foldl_nil, List.cons_append,
      List.nil_append]
  · rw [mul_comm f 2]
  · rw [mul_comm f 3]
  · rw [mul_comm f 25]
  · omega
  · omega
  · omega
  · omega
  · intro h
    rw [mul_comm f 2] at h
    have h1 : pclk1 / (2 * f) % 65536 < 65536 := Nat.mod_lt _ (by norm_num)
    have h2 : Nat.max (pclk1 / (2 * f) % 65536) 4 ≤ 65535 :=
      max_le (by omega) (by norm_num)
    have h3 : pclk1 / (2 * f) ≤ Nat.max 4 (pclk1 / (2 * f)) :=
      le_max_right _ _
    rw [h] at h2
    omega
  · intro h
    omega

/-- Witness for C10 at `f = 100 kHz`, `pclk1 = 8 MHz`. -/
theorem c10_truncation_witness :
    (I2c.init (Mode.Standard ⟨100000⟩) ⟨8000000⟩ I2cRegs.resetVal).ccr.ccr =
      Nat.max (8000000 / (2 * 100000) % 65536) 4 ∧
    (I2c.init (Mode.Fast ⟨100000⟩ DutyCycle.Ratio2to1) ⟨8000000⟩
        I2cRegs.resetVal).ccr.ccr =
      Nat.max (8000000 / (3 * 100000) % 65536) 1 ∧
    (I2c.init (Mode.Fast ⟨100000⟩ DutyCycle.Ratio16to9) ⟨8000000⟩
        I2cRegs.resetVal).ccr.ccr =
      Nat.max (8000000 / (25 * 100000) % 65536) 1 ∧
    (I2c.init (Mode.Standard ⟨100000⟩) ⟨8000000⟩ I2cRegs.resetVal).cr2_freq =
      8000000 / 1000000 % 256 ∧
    (I2c.init (Mode.Standard ⟨100000⟩) ⟨8000000⟩ I2cRegs.resetVal).trise =
      (8000000 / 1000000 + 1) % 256 ∧
    (I2c.init (Mode.Standard ⟨100000⟩) ⟨8000000⟩ I2cRegs.resetVal).trise < 256 ∧
    (I2c.init (Mode.Fast ⟨100000⟩ DutyCycle.Ratio2to1) ⟨8000000⟩
        I2cRegs.resetVal).trise < 256 ∧
    ((I2c.init (Mode.Standard ⟨100000⟩) ⟨8000000⟩ I2cRegs.resetVal).ccr.ccr =
        Nat.max 4 (8000000 / (2 * 100000)) → 8000000 / (2 * 100000) < 65536) ∧
    ((I2c.init (Mode.Standard ⟨100000⟩) ⟨8000000⟩ I2cRegs.resetVal).trise =
        8000000 / 1000000 + 1 → 8000000 / 1000000 < 256) :=
  c10_truncation 100000 8000000 I2cRegs.resetVal (by decide)

end I2cHal
